import Mathlib

/-!
Verification of the Independent Reserve WebSocket client (`ir_client.py`).

The client is shallowly embedded: Python dict caches become functions
`String → Option Json`, the insertion-ordered subscription cache
(`collections.OrderedDict`) becomes an association list, timestamps are
naturals (Unix seconds), and each Python coroutine body becomes a pure
step function returning the new client state, the list of wire messages
sent, and the exception (if any) that escaped the body.  State mutations
performed before a raised exception persist, as in Python.
-/

/-- Decoded JSON values, as produced by `json.loads`.  Numbers are modelled
as rationals; the router never computes with them, it only stores and
compares payloads. -/
inductive Json where
  | null
  | bool (b : Bool)
  | num (q : Rat)
  | str (s : String)
  | arr (elems : List Json)
  | obj (fields : List (String × Json))

/-- The Python exceptions that can escape the client's handlers. -/
inductive PyErr where
  | attributeError
  | keyError
  | typeError
  | connectionClosed
deriving DecidableEq, Repr

/-- The state of the `self.websocket` attribute: `unset` is Python `None`
(never connected), `conn` an open connection, `closed` a connection object
that has been closed (the attribute is never reset to `None` on
disconnect). -/
inductive WsState where
  | unset
  | conn
  | closed
deriving DecidableEq, Repr

/-- The authentication object attached to a private subscribe
(`message["o"]` in the source). -/
structure AuthPayload where
  apiKey : String
  nonce : String
  signature : String
deriving DecidableEq, Repr

/-- An outbound wire message (`json.dumps` of the message dict). -/
inductive Wire where
  | subscribe (channel : String) (auth : Option AuthPayload)
  | unsubscribe (channel : String)
deriving DecidableEq, Repr

/-- `dict.get(k)` on a decoded JSON object: first binding wins
(`json.loads` never yields duplicate keys). -/
def objGet (fs : List (String × Json)) (k : String) : Option Json :=
  (fs.find? (fun p => p.1 == k)).map (·.2)

/-- Python truthiness of `dict.get`'s result (`None` and empty/zero
values are falsy). -/
def truthy : Option Json → Bool
  | none => false
  | some .null => false
  | some (.bool b) => b
  | some (.num q) => !(q == 0)
  | some (.str s) => !(s == "")
  | some (.arr l) => !l.isEmpty
  | some (.obj l) => !l.isEmpty

/-- `data.get("e") == "error"`: only a string `"error"` compares equal. -/
def isErrorEvent : Option Json → Bool
  | some (.str s) => s == "error"
  | _ => false

/-- `payload[k]`: `KeyError` on a dict without the key, `TypeError` on a
non-dict. -/
def getItem (j : Json) (k : String) : Except PyErr Json :=
  match j with
  | .obj fs =>
    match (fs.find? (fun p => p.1 == k)).map (·.2) with
    | some v => .ok v
    | none => .error .keyError
  | _ => .error .typeError

/-- `str.lower()`, per character (ASCII case mapping, which covers every
channel and currency code the client handles). -/
def pyLower (s : String) : String := ⟨s.data.map Char.toLower⟩

/-- `str.startswith(pre)`. -/
def pyStartsWith (s pre : String) : Bool := pre.data.isPrefixOf s.data

/-- `.lower()` on a JSON value: `AttributeError` unless it is a string. -/
def jsonLower (j : Json) : Except PyErr String :=
  match j with
  | .str s => .ok (pyLower s)
  | _ => .error .attributeError

/-- `for x in payload`: lists yield elements, dicts their keys, strings
their characters; anything else raises `TypeError`. -/
def pyIter (j : Json) : Except PyErr (List Json) :=
  match j with
  | .arr l => .ok l
  | .obj fs => .ok (fs.map (fun p => Json.str p.1))
  | .str s => .ok (s.toList.map (fun c => Json.str (String.singleton c)))
  | _ => .error .typeError

/-- A dict cache keyed by strings, with its `m[k] = v` update. -/
def mapSet (m : String → Option Json) (k : String) (v : Json) :
    String → Option Json :=
  fun k' => if k' == k then some v else m k'

/-- `payload['PrimaryCurrencyCode'].lower() +
payload['SecondaryCurrencyCode'].lower()` (source line 95), with Python's
left-to-right evaluation and exception order. -/
def instrumentKey (p : Json) : Except PyErr String := do
  let prim ← getItem p "PrimaryCurrencyCode"
  let primS ← jsonLower prim
  let sec ← getItem p "SecondaryCurrencyCode"
  let secS ← jsonLower sec
  .ok (primS ++ secS)

/-- Insertion-ordered timestamp map (`collections.OrderedDict`):
`m[k] = v` updates in place when the key exists, else appends. -/
def odUpdate (l : List (String × Nat)) (k : String) (v : Nat) :
    List (String × Nat) :=
  if l.any (fun p => p.1 == k) then
    l.map (fun p => if p.1 == k then (k, v) else p)
  else l ++ [(k, v)]

/-- Lookup in the ordered map. -/
def odGet (l : List (String × Nat)) (k : String) : Option Nat :=
  (l.find? (fun p => p.1 == k)).map (·.2)

/-- `del m[k]` (the client only deletes keys it has just confirmed). -/
def odDel (l : List (String × Nat)) (k : String) : List (String × Nat) :=
  l.filter (fun p => !(p.1 == k))

/-- The key list of the ordered map, in iteration order. -/
def odKeys (l : List (String × Nat)) : List String :=
  l.map (·.1)

/-- `set.add`: append only when absent (Python set membership). -/
def setAdd (l : List String) (k : String) : List String :=
  if l.contains k then l else l ++ [k]

/-- `set.discard`. -/
def setDiscard (l : List String) (k : String) : List String :=
  l.filter (fun x => !(x == k))

/-- The state of `IndependentReserveWebSocketClient`. -/
structure Client where
  api_key : Option String
  api_secret : Option String
  tickers : String → Option Json
  order_books : String → Option Json
  recent_trades : String → Option Json
  balances : String → Option Json
  subscription_cache : List (String × Nat)
  websocket : WsState
  running : Bool
  active_subscriptions : List String

/-- `__init__`: empty caches, no socket. -/
def initClient (key secret : Option String) : Client where
  api_key := key
  api_secret := secret
  tickers := fun _ => none
  order_books := fun _ => none
  recent_trades := fun _ => none
  balances := fun _ => none
  subscription_cache := []
  websocket := .unset
  running := false
  active_subscriptions := []

/-- `CACHE_TIMEOUT = 300` seconds. -/
def CACHE_TIMEOUT : Nat := 300

/-- The `balance` branch of `_handle_message`: mutates `self.balances`
entry by entry, so entries written before a raised exception persist. -/
def balanceLoop (c : Client) : List Json → Client × Option PyErr
  | [] => (c, none)
  | item :: rest =>
    match getItem item "CurrencyCode" with
    | .error e => (c, some e)
    | .ok cur =>
      match jsonLower cur with
      | .error e => (c, some e)
      | .ok key => balanceLoop { c with balances := mapSet c.balances key item } rest

/-- `_handle_message(data)`: routes a decoded frame.  Returns the new
client state and the exception, if one escaped (Python raises
`AttributeError` on `.get` of a non-dict, `KeyError`/`TypeError`/
`AttributeError` inside the payload accesses). -/
def handleMessage (c : Client) (data : Json) : Client × Option PyErr :=
  match data with
  | .obj fs =>
    if isErrorEvent (objGet fs "e") then
      (c, none)
    else
      let channel := objGet fs "n"
      let payload := objGet fs "o"
      if truthy channel = false || truthy payload = false then
        (c, none)
      else
        match channel with
        | some (.str ch) =>
          let p := payload.getD .null
          if pyStartsWith ch "ticker" then
            match instrumentKey p with
            | .ok key => ({ c with tickers := mapSet c.tickers key p }, none)
            | .error e => (c, some e)
          else if pyStartsWith ch "orderbook" then
            match instrumentKey p with
            | .ok key => ({ c with order_books := mapSet c.order_books key p }, none)
            | .error e => (c, some e)
          else if pyStartsWith ch "recenttrades" then
            match instrumentKey p with
            | .ok key => ({ c with recent_trades := mapSet c.recent_trades key p }, none)
            | .error e => (c, some e)
          else if ch == "balance" then
            match pyIter p with
            | .ok items => balanceLoop c items
            | .error e => (c, some e)
          else (c, none)
        | _ => (c, some .attributeError)
  | _ => (c, some .attributeError)

/-- One iteration of the read loop body (source lines 54-58): `none`
models a frame `json.loads` rejects (the `JSONDecodeError` handler logs
and continues); any other exception escapes the `async for`, ending the
loop (the outer handler then reconnects).  The boolean is `true` when the
read loop survives the frame. -/
def readLoopStep (c : Client) (frame : Option Json) : Client × Bool :=
  match frame with
  | none => (c, true)
  | some data =>
    match handleMessage c data with
    | (c', none) => (c', true)
    | (c', some _) => (c', false)

/-- `get_latest_ticker`. -/
def get_latest_ticker (c : Client) (primary secondary : String) : Option Json :=
  c.tickers (pyLower primary ++ pyLower secondary)

/-- `get_latest_order_book`. -/
def get_latest_order_book (c : Client) (primary secondary : String) : Option Json :=
  c.order_books (pyLower primary ++ pyLower secondary)

/-- `get_latest_recent_trades`. -/
def get_latest_recent_trades (c : Client) (primary secondary : String) : Option Json :=
  c.recent_trades (pyLower primary ++ pyLower secondary)

/-! ### HMAC-SHA256 (`hmac.new(..., digestmod=hashlib.sha256)`)

Bytes are naturals below 256, 32-bit words naturals below `2 ^ 32`. -/

/-- Truncation to a 32-bit word. -/
def w32 (n : Nat) : Nat := n % 4294967296

/-- Right rotation of a 32-bit word. -/
def rotr32 (x n : Nat) : Nat := w32 (x / 2 ^ n + x % 2 ^ n * 2 ^ (32 - n))

/-- Big-endian byte expansion, `n` bytes wide. -/
def beBytes : Nat → Nat → List Nat
  | 0, _ => []
  | n + 1, v => beBytes n (v / 256) ++ [v % 256]

/-- SHA-256 padding: `0x80`, zeros to 56 mod 64, 8-byte big-endian bit
length. -/
def sha256Pad (msg : List Nat) : List Nat :=
  msg ++ [128] ++ List.replicate ((119 - msg.length % 64) % 64) 0
    ++ beBytes 8 (msg.length * 8)

/-- Split into 64-byte blocks (fuelled to stay structural). -/
def chunksGo : Nat → List Nat → List (List Nat)
  | 0, _ => []
  | _, [] => []
  | n + 1, l => l.take 64 :: chunksGo n (l.drop 64)

/-- All 64-byte blocks of a padded message. -/
def chunks64 (l : List Nat) : List (List Nat) := chunksGo l.length l

/-- Big-endian 32-bit words of a 64-byte block. -/
def bytesToWords : List Nat → List Nat
  | b0 :: b1 :: b2 :: b3 :: rest =>
    (((b0 * 256 + b1) * 256 + b2) * 256 + b3) :: bytesToWords rest
  | _ => []

/-- Indexing with default 0 (all accesses are in range). -/
def nth (l : List Nat) (i : Nat) : Nat := l.getD i 0

/-- Message-schedule extension, carried reversed (head = newest word). -/
def sha256ExtendGo : Nat → List Nat → List Nat
  | 0, rw => rw
  | n + 1, rw =>
    let s0 := rotr32 (nth rw 14) 7 ^^^ rotr32 (nth rw 14) 18 ^^^ nth rw 14 / 2 ^ 3
    let s1 := rotr32 (nth rw 1) 17 ^^^ rotr32 (nth rw 1) 19 ^^^ nth rw 1 / 2 ^ 10
    sha256ExtendGo n (w32 (nth rw 15 + s0 + nth rw 6 + s1) :: rw)

/-- The 64-word message schedule of one block. -/
def sha256Schedule (ws : List Nat) : List Nat :=
  (sha256ExtendGo 48 ws.reverse).reverse

/-- The 64 SHA-256 round constants. -/
def sha256K : List Nat :=
  [1116352408, 1899447441, 3049323471, 3921009573, 961987163,
   1508970993, 2453635748, 2870763221, 3624381080, 310598401,
   607225278, 1426881987, 1925078388, 2162078206, 2614888103,
   3248222580, 3835390401, 4022224774, 264347078, 604807628,
   770255983, 1249150122, 1555081692, 1996064986, 2554220882,
   2821834349, 2952996808, 3210313671, 3336571891, 3584528711,
   113926993, 338241895, 666307205, 773529912, 1294757372,
   1396182291, 1695183700, 1986661051, 2177026350, 2456956037,
   2730485921, 2820302411, 3259730800, 3345764771, 3516065817,
   3600352804, 4094571909, 275423344, 430227734, 506948616,
   659060556, 883997877, 958139571, 1322822218, 1537002063,
   1747873779, 1955562222, 2024104815, 2227730452, 2361852424,
   2428436474, 2756734187, 3204031479, 3329325298]

/-- The SHA-256 initial hash value. -/
def sha256H0 : List Nat :=
  [1779033703, 3144134277, 1013904242, 2773480762,
   1359893119, 2600822924, 528734635, 1541459225]

/-- One compression round; state is `[a, b, c, d, e, f, g, h]`. -/
def sha256Round (st : List Nat) (kw : Nat × Nat) : List Nat :=
  match st with
  | [a, b, c, d, e, f, g, h] =>
    let bigS1 := rotr32 e 6 ^^^ rotr32 e 11 ^^^ rotr32 e 25
    let chEFG := (e &&& f) ^^^ ((e ^^^ 0xffffffff) &&& g)
    let temp1 := w32 (h + bigS1 + chEFG + kw.1 + kw.2)
    let bigS0 := rotr32 a 2 ^^^ rotr32 a 13 ^^^ rotr32 a 22
    let maj := (a &&& b) ^^^ (a &&& c) ^^^ (b &&& c)
    let temp2 := w32 (bigS0 + maj)
    [w32 (temp1 + temp2), a, b, c, w32 (d + temp1), e, f, g]
  | _ => st

/-- Compress one 64-byte block into the running hash. -/
def sha256Block (h : List Nat) (block : List Nat) : List Nat :=
  let w := sha256Schedule (bytesToWords block)
  let st := (sha256K.zip w).foldl sha256Round h
  (h.zip st).map (fun p => w32 (p.1 + p.2))

/-- SHA-256 of a byte list, as a 32-byte digest. -/
def sha256 (msg : List Nat) : List Nat :=
  ((chunks64 (sha256Pad msg)).foldl sha256Block sha256H0).foldr
    (fun wrd acc => beBytes 4 wrd ++ acc) []

/-- HMAC-SHA256 (RFC 2104, block size 64). -/
def hmacSha256 (key msg : List Nat) : List Nat :=
  let k0 := if key.length > 64 then sha256 key else key
  let kp := k0 ++ List.replicate (64 - k0.length) 0
  sha256 ((kp.map (fun b => b ^^^ 0x5c)) ++
    sha256 ((kp.map (fun b => b ^^^ 0x36)) ++ msg))

/-- UTF-8 encoding of a scalar value (`str.encode('utf-8')`). -/
def utf8Bytes (n : Nat) : List Nat :=
  if n < 128 then [n]
  else if n < 2048 then [192 + n / 64, 128 + n % 64]
  else if n < 65536 then [224 + n / 4096, 128 + n / 64 % 64, 128 + n % 64]
  else [240 + n / 262144, 128 + n / 4096 % 64, 128 + n / 64 % 64, 128 + n % 64]

/-- UTF-8 bytes of a string. -/
def strBytes (s : String) : List Nat :=
  s.data.flatMap (fun c => utf8Bytes c.toNat)

/-- Lowercase hex digit. -/
def hexDigit (n : Nat) : Char :=
  if n < 10 then Char.ofNat (48 + n) else Char.ofNat (87 + n)

/-- `.hexdigest()`: lowercase hex of a digest. -/
def bytesToHex (bs : List Nat) : String :=
  String.join (bs.map (fun b => String.mk [hexDigit (b / 16), hexDigit (b % 16)]))

/-- The signature scheme as the spec words it: HMAC-SHA256 keyed by the
secret over the comma-joined string
`apiKey=<key>,nonce=<nonce>,channel=<channel>`, uppercase hex — a pure
function of exactly these four inputs. -/
def signSpec (secret apiKey channel nonce : String) : String :=
  (bytesToHex (hmacSha256 (strBytes secret)
    (strBytes ("apiKey=" ++ apiKey ++ ",nonce=" ++ nonce ++ ",channel=" ++ channel)))).toUpper

/-! ### Subscription operations -/

/-- The outcome of running one coroutine body: the client state after it
(mutations before a raise persist), the wire messages sent, and the
exception that escaped, if any. -/
structure StepRes where
  client : Client
  sent : List Wire
  err : Option PyErr

/-- Truthiness of `os.getenv`'s result (`None` or empty string falsy). -/
def optStrTruthy : Option String → Bool
  | none => false
  | some s => !(s == "")

/-- The send half of `_subscribe` (source lines 120-154): reached when the
channel is not cached within TTL.  `if self.websocket:` tests attribute
truthiness, so a closed-but-set socket passes the guard and the send
raises `ConnectionClosed`; the registry is only touched after a
successful send.  The nonce is `str(int(time.time()))`. -/
def subscribeSend (c : Client) (now : Nat) (channel : String)
    (is_private : Bool) : StepRes :=
  if c.websocket = .unset then
    ⟨c, [], none⟩
  else if is_private &&
      (optStrTruthy c.api_key = false || optStrTruthy c.api_secret = false) then
    ⟨c, [], none⟩
  else
    let message : Wire :=
      if is_private then
        let nonce := toString now
        let parameters_for_signature :=
          ["apiKey=" ++ c.api_key.getD "", "nonce=" ++ nonce,
           "channel=" ++ channel]
        let message_to_sign := String.intercalate "," parameters_for_signature
        let signature := (bytesToHex (hmacSha256
          (strBytes (c.api_secret.getD "")) (strBytes message_to_sign))).toUpper
        .subscribe channel (some ⟨c.api_key.getD "", nonce, signature⟩)
      else .subscribe channel none
    match c.websocket with
    | .conn =>
      ⟨{ c with
          active_subscriptions := setAdd c.active_subscriptions channel,
          subscription_cache := odUpdate c.subscription_cache channel now },
        [message], none⟩
    | _ => ⟨c, [], some .connectionClosed⟩

/-- `_subscribe(channel, is_private)` (source lines 112-154): a channel
cached within TTL only has its timestamp refreshed; otherwise the send
path runs. -/
def subscribeStep (c : Client) (now : Nat) (channel : String)
    (is_private : Bool) : StepRes :=
  match odGet c.subscription_cache channel with
  | some t =>
    if now - t < CACHE_TIMEOUT then
      ⟨{ c with subscription_cache := odUpdate c.subscription_cache channel now },
        [], none⟩
    else subscribeSend c now channel is_private
  | none => subscribeSend c now channel is_private

/-- `_unsubscribe(channel)` (source lines 156-166): skip when inactive;
the send on a closed-but-set socket raises before any registry mutation;
on a successful send the channel is discarded from the active set and
deleted from the cache (`del` would raise `KeyError` were it absent). -/
def unsubscribeStep (c : Client) (channel : String) : StepRes :=
  if c.active_subscriptions.contains channel = false then
    ⟨c, [], none⟩
  else
    match c.websocket with
    | .unset => ⟨c, [], none⟩
    | .closed => ⟨c, [], some .connectionClosed⟩
    | .conn =>
      let act := setDiscard c.active_subscriptions channel
      match odGet c.subscription_cache channel with
      | some _ =>
        ⟨{ c with
            active_subscriptions := act,
            subscription_cache := odDel c.subscription_cache channel },
          [.unsubscribe channel], none⟩
      | none =>
        ⟨{ c with active_subscriptions := act },
          [.unsubscribe channel], some .keyError⟩

/-- The `for channel in expired_channels` loop of `_manage_subscriptions`:
an exception raised by one `_unsubscribe` aborts the remaining
iterations (it escapes the loop and, in the running program, the sweeper
task). -/
def sweepLoop (c : Client) : List String → StepRes
  | [] => ⟨c, [], none⟩
  | ch :: rest =>
    let r := unsubscribeStep c ch
    match r.err with
    | some e => ⟨r.client, r.sent, some e⟩
    | none =>
      let r2 := sweepLoop r.client rest
      ⟨r2.client, r.sent ++ r2.sent, r2.err⟩

/-- One sweep pass of `_manage_subscriptions` (source lines 68-78): the
expired list is materialised from the cache first, then each expired
channel is unsubscribed. -/
def sweepPass (c : Client) (now : Nat) : StepRes :=
  sweepLoop c
    ((c.subscription_cache.filter (fun p => now - p.2 > CACHE_TIMEOUT)).map (·.1))

/-- The channels `_resubscribe_all` treats as private. -/
def privateChannels : List String := ["balance", "orders", "trades"]

/-- The `for channel in list(self.active_subscriptions)` loop of
`_resubscribe_all` (source lines 193-232): missing credentials skip a
private channel (`continue`); a `ConnectionClosed` raised by the send is
caught and breaks the loop; a successful send refreshes the cache
timestamp.  The whole pass is modelled at one timestamp `now`. -/
def resubLoop (c : Client) (now : Nat) : List String → StepRes
  | [] => ⟨c, [], none⟩
  | channel :: rest =>
    let is_private := privateChannels.contains channel
    if is_private &&
        (optStrTruthy c.api_key = false || optStrTruthy c.api_secret = false) then
      resubLoop c now rest
    else
      let message : Wire :=
        if is_private then
          let nonce := toString now
          let parameters_for_signature :=
            ["apiKey=" ++ c.api_key.getD "", "nonce=" ++ nonce,
             "channel=" ++ channel]
          let message_to_sign := String.intercalate "," parameters_for_signature
          let signature := (bytesToHex (hmacSha256
            (strBytes (c.api_secret.getD "")) (strBytes message_to_sign))).toUpper
          .subscribe channel (some ⟨c.api_key.getD "", nonce, signature⟩)
        else .subscribe channel none
      match c.websocket with
      | .conn =>
        let r := resubLoop
          { c with subscription_cache := odUpdate c.subscription_cache channel now }
          now rest
        ⟨r.client, message :: r.sent, r.err⟩
      | _ => ⟨c, [], none⟩

/-- `_resubscribe_all()` (source lines 187-232). -/
def resubscribeAll (c : Client) (now : Nat) : StepRes :=
  if c.websocket = .unset || c.active_subscriptions.isEmpty then
    ⟨c, [], none⟩
  else resubLoop c now c.active_subscriptions

/-- Entering `Connected` (source lines 48-52): the socket attribute is
set to the fresh open connection, then `_resubscribe_all` replays. -/
def onConnected (c : Client) (now : Nat) : StepRes :=
  resubscribeAll { c with websocket := .conn } now

/-- A detected disconnect: the attribute keeps the (now closed) socket
object; nothing resets it to `None`. -/
def onDisconnected (c : Client) : Client :=
  { c with websocket := .closed }

/-- The registry invariant: a channel is in the active set exactly when it
is a key of the subscription cache. -/
def regInv (c : Client) : Prop :=
  ∀ ch : String, ch ∈ c.active_subscriptions ↔ ch ∈ odKeys c.subscription_cache

/-! ### Concrete states and frames used as evaluation inputs -/

/-- The ticker payload of the round-trip property. -/
def tickPayload : Json :=
  .obj [("PrimaryCurrencyCode", .str "Xbt"), ("SecondaryCurrencyCode", .str "Usd"),
        ("LastPrice", .num 50000)]

/-- A ticker frame carrying `tickPayload`. -/
def tickFrame : Json := .obj [("n", .str "ticker-xbt-usd"), ("o", tickPayload)]

/-- A frame that parses as JSON and has channel and payload, but whose
ticker payload lacks `PrimaryCurrencyCode`. -/
def badTickFrame : Json :=
  .obj [("n", .str "ticker-xbtusd"), ("o", .obj [("foo", .num 1)])]

/-- A connected client with credentials and empty registry. -/
def cConnW : Client := { initClient (some "k") (some "s") with websocket := .conn }

/-- A client whose socket object is set but closed (post-disconnect). -/
def cClosedW : Client := { initClient (some "k") (some "s") with websocket := .closed }

/-- A never-connected client holding one cached channel. -/
def cUnsetW : Client :=
  { initClient (some "k") (some "s") with
      subscription_cache := [("a", 0)], active_subscriptions := ["a"] }

/-- A post-disconnect client with two expired channels. -/
def cSweepCexW : Client :=
  { initClient (some "k") (some "s") with
      websocket := .closed,
      subscription_cache := [("a", 0), ("b", 0)],
      active_subscriptions := ["a", "b"] }

/-- A connected client with one expired channel. -/
def cSweepW : Client :=
  { initClient (some "k") (some "s") with
      websocket := .conn,
      subscription_cache := [("ticker-xbtusd", 0)],
      active_subscriptions := ["ticker-xbtusd"] }

/-- A connected client with a public and a private active channel. -/
def cResubW : Client :=
  { initClient (some "k") (some "s") with
      websocket := .conn,
      subscription_cache := [("ticker-xbtusd", 0), ("balance", 0)],
      active_subscriptions := ["ticker-xbtusd", "balance"] }

/-! ### Helper lemmas -/

theorem find?_map_upd (l : List (String × Nat)) (k : String) (v : Nat)
    (h : l.any (fun p => p.1 == k) = true) :
    (l.map (fun p => if p.1 == k then (k, v) else p)).find? (fun p => p.1 == k)
      = some (k, v) := by
  induction l with
  | nil => simp at h
  | cons p t ih =>
    by_cases hp : p.1 = k
    · simp [List.find?, hp]
    · have hp' : (p.1 == k) = false := by simp [hp]
      have ht : t.any (fun p => p.1 == k) = true := by
        simpa [List.any_cons, hp'] using h
      simpa [List.find?, hp'] using ih ht

theorem find?_append_single (l : List (String × Nat)) (k : String) (v : Nat)
    (h : l.any (fun p => p.1 == k) = false) :
    ((l ++ [(k, v)]).find? (fun p => p.1 == k)) = some (k, v) := by
  induction l with
  | nil => simp [List.find?]
  | cons p t ih =>
    have hp' : (p.1 == k) = false := by
      rcases List.any_eq_false.mp h p (by simp) with h'
      simpa using h'
    have ht : t.any (fun p => p.1 == k) = false := by
      refine List.any_eq_false.mpr ?_
      intro x hx
      exact List.any_eq_false.mp h x (by simp [hx])
    simpa [List.find?, hp'] using ih ht

theorem odGet_odUpdate_self (l : List (String × Nat)) (k : String) (v : Nat) :
    odGet (odUpdate l k v) k = some v := by
  unfold odGet odUpdate
  split
  next h => rw [find?_map_upd l k v h]; rfl
  next h => rw [find?_append_single l k v (Bool.eq_false_iff.mpr h)]; rfl

theorem find?_map_upd_ne (l : List (String × Nat)) (k k' : String) (v : Nat)
    (h : k' ≠ k) :
    (l.map (fun p => if p.1 == k then (k, v) else p)).find? (fun p => p.1 == k')
      = l.find? (fun p => p.1 == k') := by
  induction l with
  | nil => rfl
  | cons p t ih =>
    simp only [List.map_cons]
    by_cases hp : p.1 = k
    · rw [if_pos (by simpa using hp)]
      rw [List.find?_cons_of_neg _ (by simp; exact fun e => h e.symm),
          List.find?_cons_of_neg _ (by simp [hp]; exact fun e => h e.symm)]
      exact ih
    · rw [if_neg (by simp [hp])]
      by_cases hq : p.1 = k'
      · rw [List.find?_cons_of_pos _ (by simpa using hq),
            List.find?_cons_of_pos _ (by simpa using hq)]
      · rw [List.find?_cons_of_neg _ (by simpa using hq),
            List.find?_cons_of_neg _ (by simpa using hq)]
        exact ih

theorem odGet_odUpdate_ne (l : List (String × Nat)) (k k' : String) (v : Nat)
    (h : k' ≠ k) :
    odGet (odUpdate l k v) k' = odGet l k' := by
  unfold odGet odUpdate
  split
  next _ => rw [find?_map_upd_ne l k k' v h]
  next _ =>
    rw [List.find?_append]
    have h2 : List.find? (fun p => p.1 == k') [(k, v)] = none := by
      rw [List.find?_cons_of_neg _ (by simp; exact fun e => h e.symm)]
      rfl
    rw [h2]
    cases l.find? (fun p => p.1 == k') <;> rfl

theorem odGet_odDel_self (l : List (String × Nat)) (k : String) :
    odGet (odDel l k) k = none := by
  unfold odGet odDel
  induction l with
  | nil => rfl
  | cons p t ih =>
    by_cases hp : p.1 = k
    · rw [List.filter_cons_of_neg (by simp [hp])]
      exact ih
    · rw [List.filter_cons_of_pos (by simp [hp])]
      rw [List.find?_cons_of_neg _ (by simpa using hp)]
      exact ih

theorem odGet_odDel_ne (l : List (String × Nat)) (k k' : String) (h : k' ≠ k) :
    odGet (odDel l k) k' = odGet l k' := by
  unfold odGet odDel
  induction l with
  | nil => rfl
  | cons p t ih =>
    by_cases hp : p.1 = k
    · rw [List.filter_cons_of_neg (by simp [hp])]
      rw [List.find?_cons_of_neg _ (by simp [hp]; exact fun e => h e.symm)]
      exact ih
    · rw [List.filter_cons_of_pos (by simp [hp])]
      by_cases hq : p.1 = k'
      · rw [List.find?_cons_of_pos _ (by simpa using hq),
            List.find?_cons_of_pos _ (by simpa using hq)]
      · rw [List.find?_cons_of_neg _ (by simpa using hq),
            List.find?_cons_of_neg _ (by simpa using hq)]
        exact ih

theorem mem_odKeys_iff (l : List (String × Nat)) (k : String) :
    k ∈ odKeys l ↔ (odGet l k).isSome = true := by
  unfold odKeys odGet
  cases hf : l.find? (fun p => p.1 == k) with
  | none =>
    constructor
    · intro hm
      rcases List.mem_map.mp hm with ⟨p, hp, he⟩
      have h2 : (l.find? (fun p => p.1 == k)).isSome = true :=
        List.find?_isSome.mpr ⟨p, hp, by simp [he]⟩
      rw [hf] at h2
      simp at h2
    · intro hs
      exact absurd hs (by simp)
  | some q =>
    constructor
    · intro _
      rfl
    · intro _
      exact List.mem_map.mpr
        ⟨q, List.mem_of_find?_eq_some hf, by simpa using List.find?_some hf⟩

theorem mem_setAdd (l : List String) (k x : String) :
    x ∈ setAdd l k ↔ x ∈ l ∨ x = k := by
  unfold setAdd
  split
  next h =>
    have hk : k ∈ l := List.elem_iff.mp h
    exact ⟨Or.inl, fun hor => hor.elim id (fun e => e ▸ hk)⟩
  next _ => simp

theorem mem_setDiscard (l : List String) (k x : String) :
    x ∈ setDiscard l k ↔ x ∈ l ∧ x ≠ k := by
  unfold setDiscard
  simp only [List.mem_filter, Bool.not_eq_true', beq_eq_false_iff_ne, ne_eq]

set_option maxRecDepth 100000 in
/-- Validation of the hash embedding: RFC 2202-style HMAC-SHA256 test
vector. -/
theorem hmacSha256_test_vector :
    bytesToHex (hmacSha256 (strBytes "key")
      (strBytes "The quick brown fox jumps over the lazy dog")) =
      "f7bc83f430538424b13298e6aa6fb143ef4d59a14946175997479dbc2d1a3cd8" := by
  rfl

set_option maxRecDepth 100000 in
/-- Validation of the hash embedding: FIPS 180 test vector for `"abc"`. -/
theorem sha256_test_vector :
    bytesToHex (sha256 (strBytes "abc")) =
      "ba7816bf8f01cfea414140de5dae2223b00361a396177a9cb410ff61f20015ad" := by
  rfl

theorem message_to_sign_eq (k n ch : String) :
    String.intercalate "," ["apiKey=" ++ k, "nonce=" ++ n, "channel=" ++ ch] =
      "apiKey=" ++ k ++ ",nonce=" ++ n ++ ",channel=" ++ ch := by
  rw [show String.intercalate "," ["apiKey=" ++ k, "nonce=" ++ n, "channel=" ++ ch]
      = (("apiKey=" ++ k ++ ",") ++ ("nonce=" ++ n) ++ ",") ++ ("channel=" ++ ch) from rfl]
  apply String.ext
  simp only [String.data_append]
  simp [List.append_assoc]


/-! ### Claim theorems -/

/-- C9: a frame carrying the error marker (`e == "error"`) leaves every
cache and the registry exactly unchanged and does not raise past the
router. -/
theorem error_frame_ignored (c : Client) (fs : List (String × Json))
    (he : objGet fs "e" = some (.str "error")) :
    handleMessage c (.obj fs) = (c, none) := by
  simp only [handleMessage]
  rw [he]
  simp [isErrorEvent]

/-- Witness for C9 at a concrete error frame. -/
theorem error_frame_ignored_w :
    handleMessage (initClient none none)
        (.obj [("e", .str "error"), ("o", .str "Invalid currency pair")]) =
      (initClient none none, none) :=
  error_frame_ignored (initClient none none)
    [("e", .str "error"), ("o", .str "Invalid currency pair")] rfl

/-- C8 (round-trip): after routing a ticker frame with payload
`{PrimaryCurrencyCode: "Xbt", SecondaryCurrencyCode: "Usd",
LastPrice: 50000.0}`, `get_latest_ticker` returns that payload, with
`LastPrice = 50000`, for every case variant of the arguments. -/
theorem ticker_roundtrip (c : Client) (p s : String)
    (hp : pyLower p = "xbt") (hs : pyLower s = "usd") :
    get_latest_ticker (handleMessage c tickFrame).1 p s = some tickPayload ∧
    getItem tickPayload "LastPrice" = .ok (.num 50000) := by
  have hred : handleMessage c tickFrame =
      ({ c with tickers := mapSet c.tickers "xbtusd" tickPayload }, none) := rfl
  refine ⟨?_, rfl⟩
  unfold get_latest_ticker
  rw [hred]
  show mapSet c.tickers "xbtusd" tickPayload (pyLower p ++ pyLower s) = some tickPayload
  unfold mapSet
  rw [hp, hs]
  rw [if_pos (show (("xbt" ++ "usd") == "xbtusd") = true from rfl)]

/-- Witness for C8 at the case variant `("XBT", "Usd")`. -/
theorem ticker_roundtrip_w :
    get_latest_ticker (handleMessage (initClient none none) tickFrame).1 "XBT" "Usd" =
      some tickPayload ∧
    getItem tickPayload "LastPrice" = .ok (.num 50000) :=
  ticker_roundtrip (initClient none none) "XBT" "Usd" rfl rfl

/-- C2 (amended): a frame `json.loads` rejects is logged and dropped with
the read loop alive, and an object frame with a missing (or falsy)
channel or payload field is likewise dropped with the loop alive and no
state change; frames whose payload is structurally malformed instead
raise out of the router (see the counterexample). -/
theorem malformed_frame_dropped (c : Client) (fs : List (String × Json))
    (h : truthy (objGet fs "n") = false ∨ truthy (objGet fs "o") = false) :
    readLoopStep c none = (c, true) ∧
    readLoopStep c (some (.obj fs)) = (c, true) := by
  refine ⟨rfl, ?_⟩
  have hm : handleMessage c (.obj fs) = (c, none) := by
    by_cases he : isErrorEvent (objGet fs "e") = true <;>
      rcases h with h | h <;>
      simp [handleMessage, he, h]
  simp [readLoopStep, hm]

/-- Witness for C2's amended statement: a frame with a payload but no
channel field is dropped. -/
theorem malformed_frame_dropped_w :
    readLoopStep (initClient none none) none = (initClient none none, true) ∧
    readLoopStep (initClient none none) (some (.obj [("o", .num 1)])) =
      (initClient none none, true) :=
  malformed_frame_dropped (initClient none none) [("o", .num 1)] (Or.inl rfl)

/-- Counterexample to C2 as stated: a frame that parses, has channel and
payload, but whose ticker payload lacks `PrimaryCurrencyCode` raises
`KeyError` out of the router, so the read loop exits (and the connection
manager reconnects) — a single bad message does end the read loop. -/
theorem malformed_payload_exits_loop :
    readLoopStep (initClient none none) (some badTickFrame) =
      (initClient none none, false) := rfl

/-- C4 (amended): a subscribe on a never-connected client (socket
attribute still `None`) sends nothing, raises nothing, and touches the
registry only to refresh the timestamp of a channel cached within TTL;
but after a disconnect the closed socket object remains set, and an
uncached subscribe attempts the send and raises `ConnectionClosed`. -/
theorem subscribe_not_connected (c : Client) (now : Nat) (channel : String)
    (is_private : Bool) :
    (c.websocket = .unset →
      (subscribeStep c now channel is_private).sent = [] ∧
      (subscribeStep c now channel is_private).err = none ∧
      (subscribeStep c now channel is_private).client =
        (match odGet c.subscription_cache channel with
         | some t =>
           if now - t < CACHE_TIMEOUT then
             { c with subscription_cache := odUpdate c.subscription_cache channel now }
           else c
         | none => c)) ∧
    (c.websocket = .closed → odGet c.subscription_cache channel = none →
      (is_private = false ∨
        (optStrTruthy c.api_key = true ∧ optStrTruthy c.api_secret = true)) →
      subscribeStep c now channel is_private = ⟨c, [], some .connectionClosed⟩) := by
  constructor
  · intro hws
    unfold subscribeStep subscribeSend
    cases hg : odGet c.subscription_cache channel with
    | some t =>
      by_cases ht : now - t < CACHE_TIMEOUT
      · simp [hg, ht]
      · simp [hg, ht, hws]
    | none => simp [hg, hws]
  · intro hws hg hcred
    unfold subscribeStep subscribeSend
    rcases hcred with h | ⟨h1, h2⟩
    · simp [hg, hws, h]
    · simp [hg, hws, h1, h2]

/-- Witness for C4's amended statement on a never-connected client. -/
theorem subscribe_not_connected_w :
    ((subscribeStep cUnsetW 10 "b" false).sent = [] ∧
      (subscribeStep cUnsetW 10 "b" false).err = none ∧
      (subscribeStep cUnsetW 10 "b" false).client =
        (match odGet cUnsetW.subscription_cache "b" with
         | some t =>
           if 10 - t < CACHE_TIMEOUT then
             { cUnsetW with
                 subscription_cache := odUpdate cUnsetW.subscription_cache "b" 10 }
           else cUnsetW
         | none => cUnsetW)) :=
  (subscribe_not_connected cUnsetW 10 "b" false).1 rfl

/-- Counterexample to C4 as stated: with the socket set but closed (the
state after any disconnect) a subscribe for an uncached channel raises
`ConnectionClosed` instead of being a silent no-op. -/
theorem subscribe_after_disconnect_raises :
    subscribeStep cClosedW 10 "ticker-xbtusd" false =
      ⟨cClosedW, [], some .connectionClosed⟩ := rfl

/-- C6: the private-subscribe wire message carries
`signature = signSpec secret key channel nonce` — the HMAC-SHA256, keyed
by the secret, of `apiKey=<key>,nonce=<nonce>,channel=<channel>`, encoded
as uppercase hexadecimal — with `nonce = str(int(time))`; and the sent
message is a pure function of those inputs: two clients with the same
credentials produce the same wire bytes at the same instant. -/
theorem private_subscribe_signature (c₁ c₂ : Client) (now : Nat)
    (channel k s : String)
    (hk₁ : c₁.api_key = some k) (hs₁ : c₁.api_secret = some s)
    (hk : k ≠ "") (hs : s ≠ "")
    (hws₁ : c₁.websocket = .conn)
    (hnc₁ : odGet c₁.subscription_cache channel = none)
    (hk₂ : c₂.api_key = some k) (hs₂ : c₂.api_secret = some s)
    (hws₂ : c₂.websocket = .conn)
    (hnc₂ : odGet c₂.subscription_cache channel = none) :
    (subscribeStep c₁ now channel true).sent =
      [.subscribe channel
        (some ⟨k, toString now, signSpec s k channel (toString now)⟩)] ∧
    (subscribeStep c₁ now channel true).sent =
      (subscribeStep c₂ now channel true).sent := by
  have hkb : (k == "") = false := beq_eq_false_iff_ne.mpr hk
  have hsb : (s == "") = false := beq_eq_false_iff_ne.mpr hs
  have key : ∀ c : Client, c.api_key = some k → c.api_secret = some s →
      c.websocket = .conn → odGet c.subscription_cache channel = none →
      (subscribeStep c now channel true).sent =
        [.subscribe channel
          (some ⟨k, toString now, signSpec s k channel (toString now)⟩)] := by
    intro c hck hcs hcw hcn
    unfold subscribeStep subscribeSend
    simp only [hcn, hcw, hck, hcs, optStrTruthy, hkb, hsb, Option.getD_some]
    rw [message_to_sign_eq k (toString now) channel]
    simp [signSpec]
  exact ⟨key c₁ hk₁ hs₁ hws₁ hnc₁,
    (key c₁ hk₁ hs₁ hws₁ hnc₁).trans (key c₂ hk₂ hs₂ hws₂ hnc₂).symm⟩

/-- Witness for C6 at the `balance` channel. -/
theorem private_subscribe_signature_w :
    (subscribeStep cConnW 7 "balance" true).sent =
      [.subscribe "balance"
        (some ⟨"k", toString 7, signSpec "s" "k" "balance" (toString 7)⟩)] ∧
    (subscribeStep cConnW 7 "balance" true).sent =
      (subscribeStep cConnW 7 "balance" true).sent :=
  private_subscribe_signature cConnW cConnW 7 "balance" "k" "s" rfl rfl
    (by decide) (by decide) rfl rfl rfl rfl rfl rfl

/-- Helper: on an open connection, with credentials when needed, the send
path of `_subscribe` emits exactly one subscribe wire, commits the
registry entry, and raises nothing. -/
theorem subscribeSend_sends (c : Client) (now : Nat) (channel : String)
    (is_private : Bool)
    (hws : c.websocket = .conn)
    (hcred : is_private = false ∨
      (optStrTruthy c.api_key = true ∧ optStrTruthy c.api_secret = true)) :
    (subscribeSend c now channel is_private).err = none ∧
    (∃ a, (subscribeSend c now channel is_private).sent = [.subscribe channel a]) ∧
    (subscribeSend c now channel is_private).client =
      { c with
          active_subscriptions := setAdd c.active_subscriptions channel,
          subscription_cache := odUpdate c.subscription_cache channel now } := by
  rcases hcred with h | ⟨h1, h2⟩
  · subst h
    unfold subscribeSend
    rw [hws]
    exact ⟨rfl, ⟨none, rfl⟩, rfl⟩
  · unfold subscribeSend
    rw [hws, h1, h2]
    cases is_private
    · exact ⟨rfl, ⟨none, rfl⟩, rfl⟩
    · exact ⟨rfl, ⟨_, rfl⟩, rfl⟩

/-- Helper: `_subscribe` for an uncached channel runs the send path. -/
theorem subscribeStep_uncached (c : Client) (now : Nat) (channel : String)
    (is_private : Bool)
    (hnc : odGet c.subscription_cache channel = none) :
    subscribeStep c now channel is_private = subscribeSend c now channel is_private := by
  unfold subscribeStep
  rw [hnc]

/-- Helper: `_subscribe` for a channel cached within TTL only refreshes
the timestamp. -/
theorem subscribeStep_refresh (c : Client) (now : Nat) (channel : String)
    (is_private : Bool) (t : Nat)
    (hget : odGet c.subscription_cache channel = some t)
    (httl : now - t < CACHE_TIMEOUT) :
    subscribeStep c now channel is_private =
      ⟨{ c with subscription_cache := odUpdate c.subscription_cache channel now },
        [], none⟩ := by
  unfold subscribeStep
  rw [hget]
  simp [httl]

/-- C1: with the channel not yet cached and the connection open, the
first subscribe sends exactly one wire subscribe and commits
`last_refreshed = t₁`; a second subscribe within the TTL window sends
nothing, raises nothing, and only refreshes the timestamp to `t₂ > t₁`,
so `last_refreshed` strictly increases across the two calls. -/
theorem subscribe_twice_within_ttl (c : Client) (channel : String)
    (is_private : Bool) (t₁ t₂ : Nat)
    (hws : c.websocket = .conn)
    (hnc : odGet c.subscription_cache channel = none)
    (hcred : is_private = false ∨
      (optStrTruthy c.api_key = true ∧ optStrTruthy c.api_secret = true))
    (h12 : t₁ < t₂) (httl : t₂ - t₁ < CACHE_TIMEOUT) :
    (∃ a, (subscribeStep c t₁ channel is_private).sent = [.subscribe channel a]) ∧
    (subscribeStep c t₁ channel is_private).err = none ∧
    (subscribeStep (subscribeStep c t₁ channel is_private).client t₂ channel
      is_private).sent = [] ∧
    (subscribeStep (subscribeStep c t₁ channel is_private).client t₂ channel
      is_private).err = none ∧
    odGet (subscribeStep c t₁ channel is_private).client.subscription_cache
      channel = some t₁ ∧
    odGet (subscribeStep (subscribeStep c t₁ channel is_private).client t₂
      channel is_private).client.subscription_cache channel = some t₂ ∧
    t₁ < t₂ ∧
    (subscribeStep (subscribeStep c t₁ channel is_private).client t₂ channel
      is_private).client =
      { (subscribeStep c t₁ channel is_private).client with
          subscription_cache :=
            odUpdate (subscribeStep c t₁ channel is_private).client.subscription_cache
              channel t₂ } := by
  have hstep1 : subscribeStep c t₁ channel is_private =
      subscribeSend c t₁ channel is_private :=
    subscribeStep_uncached c t₁ channel is_private hnc
  obtain ⟨he1, ⟨a, hs1⟩, hc1⟩ := subscribeSend_sends c t₁ channel is_private hws hcred
  have hget1 : odGet (subscribeStep c t₁ channel is_private).client.subscription_cache
      channel = some t₁ := by
    rw [hstep1, hc1]
    exact odGet_odUpdate_self _ _ _
  have hstep2 := subscribeStep_refresh (subscribeStep c t₁ channel is_private).client
    t₂ channel is_private t₁ hget1 httl
  refine ⟨⟨a, by rw [hstep1]; exact hs1⟩, by rw [hstep1]; exact he1, ?_, ?_,
    hget1, ?_, h12, ?_⟩
  · rw [hstep2]
  · rw [hstep2]
  · rw [hstep2]
    exact odGet_odUpdate_self _ _ _
  · rw [hstep2]

/-- Witness for C1 on a connected client and a fresh public channel. -/
theorem subscribe_twice_within_ttl_w :
    (subscribeStep (subscribeStep cConnW 100 "ticker-xbtusd" false).client 150
      "ticker-xbtusd" false).sent = [] ∧
    odGet (subscribeStep (subscribeStep cConnW 100 "ticker-xbtusd" false).client
      150 "ticker-xbtusd" false).client.subscription_cache "ticker-xbtusd" =
      some 150 :=
  have h := subscribe_twice_within_ttl cConnW "ticker-xbtusd" false 100 150 rfl
    rfl (Or.inl rfl) (by decide) (by decide)
  ⟨h.2.2.1, h.2.2.2.2.2.1⟩

/-- Helper: with the socket attribute unset, one sweep pass is a global
no-op (every unsubscribe silently skips, nothing raises, every registry
entry is retained for the next interval). -/
theorem sweepLoop_unset (c : Client) (l : List String)
    (hws : c.websocket = .unset) :
    sweepLoop c l = ⟨c, [], none⟩ := by
  induction l with
  | nil => rfl
  | cons ch rest ih =>
    have hu : unsubscribeStep c ch = ⟨c, [], none⟩ := by
      unfold unsubscribeStep
      by_cases hm : c.active_subscriptions.contains ch = false
      · rw [if_pos hm]
      · rw [if_neg hm, hws]
    simp [sweepLoop, hu, ih]

/-- Helper: with the socket attribute set but closed, the first active
expired channel raises and the pass ends with the client untouched and
no wire sent. -/
theorem sweepLoop_closed (c : Client) (l : List String)
    (hws : c.websocket = .closed) :
    (sweepLoop c l).client = c ∧ (sweepLoop c l).sent = [] := by
  induction l with
  | nil => exact ⟨rfl, rfl⟩
  | cons ch rest ih =>
    by_cases hm : c.active_subscriptions.contains ch = false
    · have hu : unsubscribeStep c ch = ⟨c, [], none⟩ := by
        unfold unsubscribeStep
        rw [if_pos hm]
      constructor <;> simp [sweepLoop, hu, ih.1, ih.2]
    · have hu : unsubscribeStep c ch = ⟨c, [], some .connectionClosed⟩ := by
        unfold unsubscribeStep
        rw [if_neg hm, hws]
      constructor <;> simp [sweepLoop, hu]

/-- C3 (amended): the registry entry of a channel whose unsubscribe did
not complete is always preserved (removal happens only after a successful
send), but resilience of the pass depends on how the send fails: with the
socket attribute unset every unsubscribe silently skips and the pass
continues; with the socket set but closed, the raised `ConnectionClosed`
aborts the remaining unsubscribes of that pass (and, in the running
program, escapes `_manage_subscriptions` entirely). -/
theorem sweep_failure_isolation (c : Client) (now : Nat) :
    (c.websocket = .unset → sweepPass c now = ⟨c, [], none⟩) ∧
    (c.websocket = .closed →
      (sweepPass c now).client = c ∧ (sweepPass c now).sent = []) := by
  constructor
  · intro h
    exact sweepLoop_unset c _ h
  · intro h
    exact sweepLoop_closed c _ h

/-- Witness for C3's amended statement at both failure modes. -/
theorem sweep_failure_isolation_w :
    sweepPass cUnsetW 1000 = ⟨cUnsetW, [], none⟩ ∧
    ((sweepPass cSweepCexW 1000).client = cSweepCexW ∧
      (sweepPass cSweepCexW 1000).sent = []) :=
  ⟨(sweep_failure_isolation cUnsetW 1000).1 rfl,
   (sweep_failure_isolation cSweepCexW 1000).2 rfl⟩

/-- Counterexample to C3 as stated: on a post-disconnect client both
`"a"` and `"b"` are expired, the unsubscribe of `"a"` raises, and no
unsubscribe for `"b"` is emitted in that pass — the failure aborts the
rest of the sweep (the entries are preserved, as the claim says). -/
theorem sweep_abort_on_failure :
    odGet cSweepCexW.subscription_cache "b" = some 0 ∧
    1000 - 0 > CACHE_TIMEOUT ∧
    (sweepPass cSweepCexW 1000).sent = [] ∧
    (sweepPass cSweepCexW 1000).err = some .connectionClosed ∧
    odGet (sweepPass cSweepCexW 1000).client.subscription_cache "b" = some 0 :=
  ⟨rfl, by decide, rfl, rfl, rfl⟩

/-- Helper: `_subscribe` for a channel cached but expired runs the send
path. -/
theorem subscribeStep_expired (c : Client) (now : Nat) (channel : String)
    (is_private : Bool) (t : Nat)
    (hget : odGet c.subscription_cache channel = some t)
    (httl : ¬(now - t < CACHE_TIMEOUT)) :
    subscribeStep c now channel is_private = subscribeSend c now channel is_private := by
  unfold subscribeStep
  rw [hget]
  simp [httl]

/-- Helper: an in-place timestamp update of a channel that is in the
active set preserves the registry invariant. -/
theorem regInv_refresh (c : Client) (channel : String) (now : Nat)
    (h : regInv c) (hmem : channel ∈ c.active_subscriptions) :
    regInv { c with subscription_cache := odUpdate c.subscription_cache channel now } := by
  intro ch
  show ch ∈ c.active_subscriptions ↔ ch ∈ odKeys (odUpdate c.subscription_cache channel now)
  rw [mem_odKeys_iff]
  by_cases hch : ch = channel
  · subst hch
    rw [odGet_odUpdate_self]
    simp [hmem]
  · rw [odGet_odUpdate_ne _ _ _ _ hch, ← mem_odKeys_iff]
    exact h ch

/-- Helper: committing a new subscription to both sides of the registry
preserves the invariant. -/
theorem regInv_commit (c : Client) (channel : String) (now : Nat)
    (h : regInv c) :
    regInv { c with
        active_subscriptions := setAdd c.active_subscriptions channel,
        subscription_cache := odUpdate c.subscription_cache channel now } := by
  intro ch
  show ch ∈ setAdd c.active_subscriptions channel ↔
    ch ∈ odKeys (odUpdate c.subscription_cache channel now)
  rw [mem_setAdd, mem_odKeys_iff]
  by_cases hch : ch = channel
  · subst hch
    rw [odGet_odUpdate_self]
    simp
  · rw [odGet_odUpdate_ne _ _ _ _ hch, ← mem_odKeys_iff]
    constructor
    · rintro (hm | he)
      · exact (h ch).mp hm
      · exact absurd he hch
    · intro hm
      exact Or.inl ((h ch).mpr hm)

/-- Helper: the send path of `_subscribe` preserves the registry
invariant in every branch. -/
theorem regInv_subscribeSend (c : Client) (now : Nat) (channel : String)
    (is_private : Bool) (h : regInv c) :
    regInv (subscribeSend c now channel is_private).client := by
  unfold subscribeSend
  split
  · exact h
  · split
    · exact h
    · cases hws2 : c.websocket
      · exact h
      · exact regInv_commit c channel now h
      · exact h

/-- Helper: `_subscribe` preserves the registry invariant. -/
theorem regInv_subscribeStep (c : Client) (now : Nat) (channel : String)
    (is_private : Bool) (h : regInv c) :
    regInv (subscribeStep c now channel is_private).client := by
  cases hg : odGet c.subscription_cache channel with
  | some t =>
    by_cases httl : now - t < CACHE_TIMEOUT
    · rw [subscribeStep_refresh c now channel is_private t hg httl]
      have hmem : channel ∈ c.active_subscriptions :=
        (h channel).mpr ((mem_odKeys_iff _ _).mpr (by simp [hg]))
      exact regInv_refresh c channel now h hmem
    · rw [subscribeStep_expired c now channel is_private t hg httl]
      exact regInv_subscribeSend c now channel is_private h
  | none =>
    rw [subscribeStep_uncached c now channel is_private hg]
    exact regInv_subscribeSend c now channel is_private h

/-- Helper: `_unsubscribe` preserves the registry invariant. -/
theorem regInv_unsubscribeStep (c : Client) (channel : String) (h : regInv c) :
    regInv (unsubscribeStep c channel).client := by
  unfold unsubscribeStep
  by_cases hm : c.active_subscriptions.contains channel = false
  · rw [if_pos hm]
    exact h
  · rw [if_neg hm]
    cases hws : c.websocket
    · exact h
    · have hmem : channel ∈ c.active_subscriptions := by
        cases hcc : c.active_subscriptions.contains channel
        · exact absurd hcc hm
        · exact List.mem_of_elem_eq_true hcc
      have hkey : (odGet c.subscription_cache channel).isSome = true :=
        (mem_odKeys_iff _ _).mp ((h channel).mp hmem)
      obtain ⟨t, ht⟩ := Option.isSome_iff_exists.mp hkey
      rw [ht]
      intro ch
      show ch ∈ setDiscard c.active_subscriptions channel ↔
        ch ∈ odKeys (odDel c.subscription_cache channel)
      rw [mem_setDiscard, mem_odKeys_iff]
      by_cases hch : ch = channel
      · subst hch
        rw [odGet_odDel_self]
        simp
      · rw [odGet_odDel_ne _ _ _ hch, ← mem_odKeys_iff]
        constructor
        · rintro ⟨hm', _⟩
          exact (h ch).mp hm'
        · intro hk
          exact ⟨(h ch).mpr hk, hch⟩
    · exact h

/-- Helper: one sweep pass over any channel list preserves the registry
invariant. -/
theorem regInv_sweepLoop (c : Client) (l : List String) (h : regInv c) :
    regInv (sweepLoop c l).client := by
  induction l generalizing c with
  | nil => exact h
  | cons ch rest ih =>
    have hr := regInv_unsubscribeStep c ch h
    cases he : (unsubscribeStep c ch).err with
    | some e =>
      have hcl : (sweepLoop c (ch :: rest)).client = (unsubscribeStep c ch).client := by
        simp [sweepLoop, he]
      rw [hcl]
      exact hr
    | none =>
      have hcl : (sweepLoop c (ch :: rest)).client =
          (sweepLoop (unsubscribeStep c ch).client rest).client := by
        simp [sweepLoop, he]
      rw [hcl]
      exact ih _ hr

/-- Helper: the resubscription loop preserves the registry invariant when
it runs over channels of the active set. -/
theorem regInv_resubLoop (c : Client) (now : Nat) (l : List String)
    (h : regInv c) (hsub : ∀ x ∈ l, x ∈ c.active_subscriptions) :
    regInv (resubLoop c now l).client := by
  induction l generalizing c with
  | nil => exact h
  | cons channel rest ih =>
    by_cases hskip : channel ∈ privateChannels ∧
        (optStrTruthy c.api_key = false ∨ optStrTruthy c.api_secret = false)
    · have hred : resubLoop c now (channel :: rest) = resubLoop c now rest := by
        simp [resubLoop, hskip]
      rw [hred]
      exact ih c h (fun x hx => hsub x (by simp [hx]))
    · cases hws : c.websocket
      · have hred : (resubLoop c now (channel :: rest)).client = c := by
          simp [resubLoop, hskip, hws]
        rw [hred]
        exact h
      · have hred : (resubLoop c now (channel :: rest)).client =
            (resubLoop { c with
              subscription_cache := odUpdate c.subscription_cache channel now }
              now rest).client := by
          simp [resubLoop, hskip, hws]
        have hmem : channel ∈ c.active_subscriptions := hsub channel (by simp)
        rw [hred]
        exact ih _ (regInv_refresh c channel now h hmem)
          (fun x hx => hsub x (by simp [hx]))
      · have hred : (resubLoop c now (channel :: rest)).client = c := by
          simp [resubLoop, hskip, hws]
        rw [hred]
        exact h

/-- C10 (invariant): every registry-mutating operation — subscribe,
unsubscribe, resubscribe-all, sweep — preserves the invariant that the
active-subscriptions set and the key set of the subscription timestamp
cache contain exactly the same channels. -/
theorem registry_invariant (c : Client) (now : Nat) (channel : String)
    (is_private : Bool) (h : regInv c) :
    regInv (subscribeStep c now channel is_private).client ∧
    regInv (unsubscribeStep c channel).client ∧
    regInv (resubscribeAll c now).client ∧
    regInv (sweepPass c now).client := by
  refine ⟨regInv_subscribeStep c now channel is_private h,
    regInv_unsubscribeStep c channel h, ?_, regInv_sweepLoop c _ h⟩
  unfold resubscribeAll
  split
  · exact h
  · exact regInv_resubLoop c now c.active_subscriptions h (fun x hx => hx)

/-- Witness for C10 starting from a fresh connected client. -/
theorem registry_invariant_w :
    regInv (subscribeStep cConnW 5 "ticker-xbtusd" false).client ∧
    regInv (unsubscribeStep cConnW "ticker-xbtusd").client ∧
    regInv (resubscribeAll cConnW 5).client ∧
    regInv (sweepPass cConnW 5).client :=
  registry_invariant cConnW 5 "ticker-xbtusd" false (fun _ => Iff.rfl)

/-- Helper: deleting a channel from both registry sides preserves the
invariant. -/
theorem regInv_delete (c : Client) (channel : String) (hinv : regInv c) :
    regInv { c with
        active_subscriptions := setDiscard c.active_subscriptions channel,
        subscription_cache := odDel c.subscription_cache channel } := by
  intro x
  show x ∈ setDiscard c.active_subscriptions channel ↔
    x ∈ odKeys (odDel c.subscription_cache channel)
  rw [mem_setDiscard, mem_odKeys_iff]
  by_cases hx : x = channel
  · subst hx
    rw [odGet_odDel_self]
    simp
  · rw [odGet_odDel_ne _ _ _ hx, ← mem_odKeys_iff]
    constructor
    · rintro ⟨hm', _⟩
      exact (hinv x).mp hm'
    · intro hk
      exact ⟨(hinv x).mpr hk, hx⟩

/-- Helper: on an open connection, under the registry invariant, a sweep
over a duplicate-free list of cached channels unsubscribes each exactly
once, deletes exactly those registry entries, and raises nothing. -/
theorem sweepLoop_spec (c : Client) (l : List String)
    (hws : c.websocket = .conn) (hinv : regInv c) (hnd : l.Nodup)
    (hmem : ∀ x ∈ l, x ∈ odKeys c.subscription_cache) :
    (sweepLoop c l).err = none ∧
    (sweepLoop c l).sent = l.map Wire.unsubscribe ∧
    (sweepLoop c l).client.websocket = c.websocket ∧
    (sweepLoop c l).client.api_key = c.api_key ∧
    (sweepLoop c l).client.api_secret = c.api_secret ∧
    (∀ x, odGet (sweepLoop c l).client.subscription_cache x =
      if x ∈ l then none else odGet c.subscription_cache x) ∧
    (∀ x, x ∈ (sweepLoop c l).client.active_subscriptions ↔
      (x ∈ c.active_subscriptions ∧ x ∉ l)) := by
  induction l generalizing c with
  | nil =>
    exact ⟨rfl, rfl, rfl, rfl, rfl, fun x => by simp [sweepLoop],
      fun x => by simp [sweepLoop]⟩
  | cons ch rest ih =>
    have hchk : ch ∈ odKeys c.subscription_cache := hmem ch (by simp)
    have hcha : ch ∈ c.active_subscriptions := (hinv ch).mpr hchk
    have hcontains : c.active_subscriptions.contains ch = true :=
      List.elem_eq_true_of_mem hcha
    obtain ⟨t, ht⟩ := Option.isSome_iff_exists.mp ((mem_odKeys_iff _ _).mp hchk)
    have hu : unsubscribeStep c ch =
        ⟨{ c with
            active_subscriptions := setDiscard c.active_subscriptions ch,
            subscription_cache := odDel c.subscription_cache ch },
          [.unsubscribe ch], none⟩ := by
      unfold unsubscribeStep
      rw [if_neg (by rw [hcontains]; simp), hws, ht]
    have hloop : sweepLoop c (ch :: rest) =
        ⟨(sweepLoop { c with
            active_subscriptions := setDiscard c.active_subscriptions ch,
            subscription_cache := odDel c.subscription_cache ch } rest).client,
          .unsubscribe ch :: (sweepLoop { c with
            active_subscriptions := setDiscard c.active_subscriptions ch,
            subscription_cache := odDel c.subscription_cache ch } rest).sent,
          (sweepLoop { c with
            active_subscriptions := setDiscard c.active_subscriptions ch,
            subscription_cache := odDel c.subscription_cache ch } rest).err⟩ := by
      simp [sweepLoop, hu]
    have hinv' := regInv_delete c ch hinv
    have hchrest : ch ∉ rest := (List.nodup_cons.mp hnd).1
    have hmem' : ∀ x ∈ rest, x ∈ odKeys (odDel c.subscription_cache ch) := by
      intro x hx
      have hxch : x ≠ ch := fun e => hchrest (e ▸ hx)
      rw [mem_odKeys_iff, odGet_odDel_ne _ _ _ hxch]
      exact (mem_odKeys_iff _ _).mp (hmem x (by simp [hx]))
    obtain ⟨ie, is', iw, ik, isec, icache, iact⟩ :=
      ih { c with
          active_subscriptions := setDiscard c.active_subscriptions ch,
          subscription_cache := odDel c.subscription_cache ch }
        hws hinv' (List.nodup_cons.mp hnd).2 hmem'
    rw [hloop]
    refine ⟨ie, by simp [is'], iw, ik, isec, ?_, ?_⟩
    · intro x
      rw [icache x]
      by_cases hx : x = ch
      · subst hx
        simp [hchrest, odGet_odDel_self, List.mem_cons]
      · simp only [List.mem_cons]
        by_cases hxr : x ∈ rest
        · simp [hxr]
        · simp [hxr, hx, odGet_odDel_ne _ _ _ hx]
    · intro x
      rw [iact x]
      show (x ∈ setDiscard c.active_subscriptions ch ∧ x ∉ rest) ↔ _
      rw [mem_setDiscard]
      constructor
      · rintro ⟨⟨hxa, hxch⟩, hxr⟩
        refine ⟨hxa, ?_⟩
        simp [List.mem_cons, hxch, hxr]
      · rintro ⟨hxa, hxnr⟩
        have hxch : x ≠ ch := fun e => hxnr (by simp [e])
        have hxr : x ∉ rest := fun hr => hxnr (by simp [hr])
        exact ⟨⟨hxa, hxch⟩, hxr⟩

/-- C7: under the registry invariant, on an open connection, a sweep at
time `now` emits exactly one unsubscribe for every channel whose
`last_refreshed` is older than the TTL, removes it from the cache and the
active set, and a subsequent subscribe for it sends again (it is not
skipped). -/
theorem sweep_expired_channel (c : Client) (now t t' : Nat) (channel : String)
    (is_private : Bool)
    (hws : c.websocket = .conn)
    (hinv : regInv c)
    (hnd : (odKeys c.subscription_cache).Nodup)
    (hget : odGet c.subscription_cache channel = some t)
    (hexp : now - t > CACHE_TIMEOUT)
    (hcred : is_private = false ∨
      (optStrTruthy c.api_key = true ∧ optStrTruthy c.api_secret = true)) :
    (sweepPass c now).sent.count (.unsubscribe channel) = 1 ∧
    odGet (sweepPass c now).client.subscription_cache channel = none ∧
    channel ∉ (sweepPass c now).client.active_subscriptions ∧
    (∃ a, (subscribeStep (sweepPass c now).client t' channel is_private).sent
      = [.subscribe channel a]) := by
  have hsub : ∀ x ∈ (c.subscription_cache.filter
      (fun p => now - p.2 > CACHE_TIMEOUT)).map (·.1),
      x ∈ odKeys c.subscription_cache := by
    intro x hx
    rcases List.mem_map.mp hx with ⟨p, hp, he⟩
    exact List.mem_map.mpr ⟨p, (List.mem_filter.mp hp).1, he⟩
  have hndl : ((c.subscription_cache.filter
      (fun p => now - p.2 > CACHE_TIMEOUT)).map (·.1)).Nodup :=
    List.Nodup.sublist (List.Sublist.map _ (List.filter_sublist _)) hnd
  have hmeml : channel ∈ (c.subscription_cache.filter
      (fun p => now - p.2 > CACHE_TIMEOUT)).map (·.1) := by
    unfold odGet at hget
    cases hf : c.subscription_cache.find? (fun p => p.1 == channel) with
    | none =>
      rw [hf] at hget
      simp at hget
    | some q =>
      rw [hf] at hget
      have hq2 : q.2 = t := by simpa using hget
      have hq1 : q.1 = channel := by simpa using List.find?_some hf
      apply List.mem_map.mpr
      refine ⟨q, List.mem_filter.mpr ⟨List.mem_of_find?_eq_some hf, ?_⟩, hq1⟩
      simp [hq2, hexp]
  obtain ⟨se, ss, sw, sk, ssec, scache, sact⟩ :=
    sweepLoop_spec c _ hws hinv hndl hsub
  have hpass : sweepPass c now = sweepLoop c
      ((c.subscription_cache.filter (fun p => now - p.2 > CACHE_TIMEOUT)).map (·.1)) :=
    rfl
  have hget' : odGet (sweepPass c now).client.subscription_cache channel = none := by
    rw [hpass, scache channel]
    simp [hmeml]
  refine ⟨?_, hget', ?_, ?_⟩
  · rw [hpass, ss]
    have hinj : Function.Injective Wire.unsubscribe := fun a b e => by
      injection e
    exact List.count_eq_one_of_mem (hndl.map hinj)
      (List.mem_map.mpr ⟨channel, hmeml, rfl⟩)
  · rw [hpass]
    intro hmem'
    exact ((sact channel).mp hmem').2 hmeml
  · rw [subscribeStep_uncached _ _ _ _ hget']
    have hws' : (sweepPass c now).client.websocket = .conn := by
      rw [hpass, sw, hws]
    have hcred' : is_private = false ∨
        (optStrTruthy (sweepPass c now).client.api_key = true ∧
          optStrTruthy (sweepPass c now).client.api_secret = true) := by
      rcases hcred with h | ⟨h1, h2⟩
      · exact Or.inl h
      · refine Or.inr ⟨?_, ?_⟩
        · rw [hpass, sk, h1]
        · rw [hpass, ssec, h2]
    obtain ⟨_, hex, _⟩ :=
      subscribeSend_sends (sweepPass c now).client t' channel is_private hws' hcred'
    exact hex

/-- Witness for C7 on a client with one expired channel. -/
theorem sweep_expired_channel_w :
    (sweepPass cSweepW 1000).sent.count (.unsubscribe "ticker-xbtusd") = 1 ∧
    odGet (sweepPass cSweepW 1000).client.subscription_cache "ticker-xbtusd" =
      none ∧
    (∃ a, (subscribeStep (sweepPass cSweepW 1000).client 2000 "ticker-xbtusd"
      false).sent = [.subscribe "ticker-xbtusd" a]) :=
  have h := sweep_expired_channel cSweepW 1000 0 2000 "ticker-xbtusd" false rfl
    (fun _ => Iff.rfl) (by decide) rfl (by decide) (Or.inl rfl)
  ⟨h.1, h.2.1, h.2.2.2⟩

/-- Helper: the signature the client computes from its joined parameter
list equals the spec-side pure signature function. -/
theorem resub_message_eq (key secret channel : String) (now : Nat) :
    (bytesToHex (hmacSha256 (strBytes secret)
      (strBytes (String.intercalate ","
        ["apiKey=" ++ key, "nonce=" ++ toString now, "channel=" ++ channel])))).toUpper
      = signSpec secret key channel (toString now) := by
  rw [message_to_sign_eq]
  simp [signSpec]

/-- Helper: the exact wire message an initial `_subscribe` sends on an
open connection with credentials present. -/
theorem subscribeSend_sent_eq (c : Client) (now : Nat) (channel : String)
    (is_private : Bool)
    (hws : c.websocket = .conn)
    (hk : optStrTruthy c.api_key = true) (hs : optStrTruthy c.api_secret = true) :
    (subscribeSend c now channel is_private).sent =
      [if is_private then
         Wire.subscribe channel (some ⟨c.api_key.getD "", toString now,
           signSpec (c.api_secret.getD "") (c.api_key.getD "") channel (toString now)⟩)
       else Wire.subscribe channel none] := by
  cases is_private
  · simp [subscribeSend, hws]
  · simp [subscribeSend, hws, hk, hs, resub_message_eq]

/-- Helper: the resubscription loop over a channel list emits, for each
channel in order, exactly the wire an initial subscribe would send, and
raises nothing. -/
theorem resubLoop_sent (c : Client) (now : Nat) (l : List String)
    (hws : c.websocket = .conn)
    (hk : optStrTruthy c.api_key = true) (hs : optStrTruthy c.api_secret = true) :
    (resubLoop c now l).err = none ∧
    (resubLoop c now l).sent =
      (l.map (fun ch =>
        (subscribeSend c now ch (privateChannels.contains ch)).sent)).flatten := by
  induction l generalizing c with
  | nil => exact ⟨rfl, rfl⟩
  | cons channel rest ih =>
    have hskip : ¬(channel ∈ privateChannels ∧
        (optStrTruthy c.api_key = false ∨ optStrTruthy c.api_secret = false)) := by
      rintro ⟨_, hbad | hbad⟩
      · rw [hk] at hbad
        cases hbad
      · rw [hs] at hbad
        cases hbad
    obtain ⟨ie, is'⟩ := ih
      { c with subscription_cache := odUpdate c.subscription_cache channel now }
      hws hk hs
    rw [hws] at ie is'
    constructor
    · simp [resubLoop, hskip, hws, ie]
    · have hmap : rest.map (fun ch =>
          (subscribeSend c now ch (privateChannels.contains ch)).sent) =
        rest.map (fun ch =>
          (subscribeSend
            { c with
                subscription_cache := odUpdate c.subscription_cache channel now,
                websocket := .conn }
            now ch (privateChannels.contains ch)).sent) := by
        apply List.map_congr_left
        intro ch _
        rw [subscribeSend_sent_eq c now ch (privateChannels.contains ch) hws hk hs,
            subscribeSend_sent_eq
              { c with
                  subscription_cache := odUpdate c.subscription_cache channel now,
                  websocket := .conn }
              now ch (privateChannels.contains ch) rfl hk hs]
      rw [List.map_cons, List.flatten_cons, hmap, ← is',
        subscribeSend_sent_eq c now channel (privateChannels.contains channel) hws hk hs]
      simp [resubLoop, hskip, hws, resub_message_eq]

/-- C5: on every transition into Connected, the client replays, for every
channel in the active set as of the disconnect, exactly the wire an
initial subscribe would send at that instant — including a freshly
computed authentication payload (fresh nonce and signature) for each
private channel — and the replay raises nothing. -/
theorem reconnect_replays_active (c : Client) (now : Nat)
    (hk : optStrTruthy c.api_key = true) (hs : optStrTruthy c.api_secret = true) :
    (onConnected (onDisconnected c) now).err = none ∧
    (onConnected (onDisconnected c) now).sent =
      ((onDisconnected c).active_subscriptions.map (fun ch =>
        (subscribeSend { c with websocket := .conn } now ch
          (privateChannels.contains ch)).sent)).flatten ∧
    (∀ ch ∈ (onDisconnected c).active_subscriptions,
      privateChannels.contains ch = true →
      Wire.subscribe ch (some ⟨c.api_key.getD "", toString now,
        signSpec (c.api_secret.getD "") (c.api_key.getD "") ch (toString now)⟩)
        ∈ (onConnected (onDisconnected c) now).sent) := by
  by_cases hempty : c.active_subscriptions.isEmpty = true
  · have hnil : c.active_subscriptions = [] := List.isEmpty_iff.mp hempty
    have hred : onConnected (onDisconnected c) now = ⟨{ c with websocket := .conn }, [], none⟩ := by
      show resubscribeAll { c with websocket := .conn } now = _
      unfold resubscribeAll
      rw [if_pos (by simp [hempty])]
    rw [hred]
    refine ⟨rfl, ?_, ?_⟩
    · show ([] : List Wire) = _
      simp [onDisconnected, hnil]
    · intro ch hch _
      rw [show (onDisconnected c).active_subscriptions = c.active_subscriptions from rfl,
        hnil] at hch
      cases hch
  · obtain ⟨re, rs⟩ := resubLoop_sent { c with websocket := .conn } now
      c.active_subscriptions rfl hk hs
    have hred : onConnected (onDisconnected c) now =
        resubLoop { c with websocket := .conn } now c.active_subscriptions := by
      show resubscribeAll { c with websocket := .conn } now = _
      unfold resubscribeAll
      rw [if_neg (by simp [hempty])]
    rw [hred]
    refine ⟨re, rs, ?_⟩
    intro ch hch hpriv
    rw [rs]
    apply List.mem_flatten.mpr
    refine ⟨(subscribeSend { c with websocket := .conn } now ch
      (privateChannels.contains ch)).sent, List.mem_map.mpr ⟨ch, hch, rfl⟩, ?_⟩
    rw [subscribeSend_sent_eq { c with websocket := .conn } now ch
      (privateChannels.contains ch) rfl hk hs]
    have hmemp : ch ∈ privateChannels := List.mem_of_elem_eq_true hpriv
    simp [hmemp]

/-- Witness for C5 on a client with one public and one private active
channel. -/
theorem reconnect_replays_active_w :
    (onConnected (onDisconnected cResubW) 50).err = none ∧
    (onConnected (onDisconnected cResubW) 50).sent =
      ((onDisconnected cResubW).active_subscriptions.map (fun ch =>
        (subscribeSend { cResubW with websocket := .conn } 50 ch
          (privateChannels.contains ch)).sent)).flatten ∧
    (∀ ch ∈ (onDisconnected cResubW).active_subscriptions,
      privateChannels.contains ch = true →
      Wire.subscribe ch (some ⟨cResubW.api_key.getD "", toString 50,
        signSpec (cResubW.api_secret.getD "") (cResubW.api_key.getD "") ch
          (toString 50)⟩)
        ∈ (onConnected (onDisconnected cResubW) 50).sent) :=
  reconnect_replays_active cResubW 50 rfl rfl
